import Mathlib

/-!
Verification of the schema-reconciliation core of `echemdb-converters`
(`src/echemdbconverters/packager/csvpackager.py`).

The development shallowly embeds the `CSVpackager` class: field descriptors
are association lists in canonical insertion order, the three reconciliation
loops of the `fields` property are translated with Python's live-list
iteration semantics, and fallible operations return `Except`.  External
collaborators (the pandas table loader, the clevercsv delimiter sniffer and
the schema library's primitive field operations) are out of scope of the
sources and are either taken as parameters or modelled from the
specification's description of their contract; such definitions say so in
their doc comments.
-/

namespace Echem

/-- A field descriptor: a mapping from string keys to string values, modelling
a Python dict in canonical insertion order (keys unique). -/
abbrev Field := List (String × String)

/-- Modelled from the spec: the external schema library's name extraction for
a field descriptor ("field descriptor → pass/fail + name extraction"); the
value of the `name` key, or nothing when the key is absent (the source reads
`field["name"]`, which raises `KeyError` exactly when this is `none`). -/
def Field.nameKey (f : Field) : Option String :=
  (f.find? (fun kv => kv.1 == "name")).map (fun kv => kv.2)

/-- The generated marker written into synthesized fields (source line 423). -/
def generatedMarker : String := "Created by echemdb-converters."

/-- `CSVpackager.create_field` (source lines 412-423): the mapping
`{name, comment: generated marker}` and nothing else. -/
def create_field (name : String) : Field :=
  [("name", name), ("comment", generatedMarker)]

/-- `CSVpackager.create_fields` (source lines 394-410): one synthesized field
per column name, in column order. -/
def create_fields (column_names : List String) : List Field :=
  column_names.map create_field

/-- Errors of the embedded Python operations. -/
inductive PyError where
  | keyError (msg : String)
  | schemaError (msg : String)
  | notImplementedError
deriving DecidableEq, Repr

deriving instance DecidableEq for Except

/-- Python `list.remove`: delete the first element equal to `y` (used by the
source at line 157 on the schema's field list). -/
def removeFirst (xs : List Field) (y : Field) : List Field :=
  match xs with
  | [] => []
  | x :: rest => if x = y then rest else x :: removeFirst rest y

/-- First reconciliation loop (source lines 152-158): Python iterates the
live field list by index while `list.remove` shifts later elements left, so
the element right after a removed one is never examined.  The fuel equals the
initial length; when it runs out the index has already passed the end of the
(never growing) list, so returning the list agrees with the Python loop. -/
def validateLoop (fuel : Nat) (fields : List Field) (i : Nat) : List Field :=
  match fuel with
  | 0 => fields
  | fuel + 1 =>
    if h : i < fields.length then
      if (Field.nameKey fields[i]).isSome then validateLoop fuel fields (i + 1)
      else validateLoop fuel (removeFirst fields fields[i]) (i + 1)
    else fields

/-- Python's `name in self.column_names` test on an extracted field name
(source line 162): an absent name never equals a column-name string. -/
def keepName (cols : List String) (n : Option String) : Bool :=
  match n with
  | some s => cols.contains s
  | none => false

/-- Modelled from the spec: the external schema library's `remove_field`
(source line 163), which deletes the first field whose extracted name equals
`n` and fails when no field carries that name. -/
def removeField (fields : List Field) (n : Option String) : Except PyError (List Field) :=
  match fields with
  | [] => Except.error (PyError.schemaError "field does not exist")
  | f :: rest =>
    if Field.nameKey f = n then Except.ok rest
    else Except.map (fun l => f :: l) (removeField rest n)

/-- Second reconciliation loop (source lines 160-163): iterate over the
snapshot of field names taken at loop entry and remove every field whose name
is not among the column names. -/
def staleLoop (fields : List Field) (names : List (Option String)) (cols : List String) :
    Except PyError (List Field) :=
  match names with
  | [] => Except.ok fields
  | n :: ns =>
    if keepName cols n then staleLoop fields ns cols
    else
      match removeField fields n with
      | Except.error e => Except.error e
      | Except.ok fields2 => staleLoop fields2 ns cols

/-- Third reconciliation loop (source lines 165-169): for each column name
not present among the current field names (re-read on every iteration),
append a synthesized field at the end. -/
def fillLoop (fields : List Field) (cols : List String) : List Field :=
  match cols with
  | [] => fields
  | c :: rest =>
    if (fields.map Field.nameKey).contains (some c) then fillLoop fields rest
    else fillLoop (fields ++ [create_field c]) rest

/-- The `CSVpackager.fields` property (source lines 142-171) as a function of
the stored field list and the parsed column names.  `if not self._fields` is
a Python truthiness test: both a missing and an empty field list take the
synthesis path. -/
def fieldsOf (storedFields : Option (List Field)) (cols : List String) :
    Except PyError (List Field) :=
  match storedFields with
  | none => Except.ok (create_fields cols)
  | some fs =>
    if fs.isEmpty then Except.ok (create_fields cols)
    else
      let v := validateLoop fs.length fs 0
      match staleLoop v (v.map Field.nameKey) cols with
      | Except.error e => Except.error e
      | Except.ok s => Except.ok (fillLoop s cols)

/-- Whether a field survives reconciliation: it carries a name and that name
is one of the column names. -/
def isKept (cols : List String) (f : Field) : Bool :=
  keepName cols (Field.nameKey f)

/-- The caller-supplied metadata mapping, passed through uninterpreted. -/
abbrev PkgMetadata := List (String × String)

/-- The state of a `CSVpackager` instance: the text read from the file at
construction time, the stored metadata and the stored field list (source
lines 79-82). -/
structure CSVpackager where
  fileText : String
  storedMetadata : PkgMetadata
  storedFields : Option (List Field)
deriving DecidableEq, Repr

/-- `CSVpackager.__init__` (source lines 79-82): the file is read eagerly
into the instance; `metadata or {}` replaces a missing mapping by the empty
one; the field list is stored as given. -/
def initPackager (fileContent : String) (metadata : Option PkgMetadata)
    (fields : Option (List Field)) : CSVpackager :=
  { fileText := fileContent, storedMetadata := metadata.getD [], storedFields := fields }

/-- `CSVpackager.header_lines` (source lines 327-360): the generic packager
declares zero header lines. -/
def CSVpackager.header_lines (_p : CSVpackager) : Nat := 0

/-- `CSVpackager.column_names` (source lines 309-325), parameterized by the
external table loader (pandas `read_csv`, an out-of-scope collaborator):
the loader receives the stored text and the header-row offset and yields the
parsed column labels. -/
def CSVpackager.column_names (loader : String → Nat → List String) (p : CSVpackager) :
    List String :=
  loader p.fileText p.header_lines

/-- One request of the `fields` property (source lines 142-171), as a state
transformer on the instance.  The source method reads `self._fields` and
`self.column_names` and mutates only the local schema object it builds, never
the instance, so the instance component of the result is the input
instance. -/
def fieldsRequest (loader : String → Nat → List String) (p : CSVpackager) :
    Except PyError (List Field) × CSVpackager :=
  (fieldsOf p.storedFields (CSVpackager.column_names loader p), p)

/-- `CSVpackager.decimal` (source lines 448-483): the generic packager
unconditionally raises `NotImplementedError`, whatever the instance holds. -/
def CSVpackager.decimal (_p : CSVpackager) : Except PyError String :=
  Except.error PyError.notImplementedError

/-- Modelled from the spec: a device-specific packager variant (the module
`packager/electrochemistry/eclabpackager.py` is not among the sources here)
is a configuration record overriding the two constants `header_lines` and
`decimal`. -/
structure DeviceConfig where
  header_lines : Nat
  decimal : String
deriving DecidableEq, Repr

/-- Modelled from the spec: the EC-Lab variant declares five header lines and
the comma as its literal decimal separator (the values the source doctests at
lines 346-357 and 467-480 report). -/
def eclabConfig : DeviceConfig :=
  { header_lines := 5, decimal := "," }

/-- Modelled from the spec: on a device variant that declares a literal
decimal separator, the `decimal` probe returns that literal whatever the file
content is. -/
def DeviceConfig.decimalOf (cfg : DeviceConfig) (_fileContent : String) :
    Except PyError String :=
  Except.ok cfg.decimal

/-- `CSVpackager.get_packager` (source lines 206-235): returns the EC-Lab
variant for the identifier "eclab" and raises `KeyError` for any other
identifier, with the message text of the source (typos included). -/
def get_packager (device : String) : Except PyError DeviceConfig :=
  if device = "eclab" then Except.ok eclabConfig
  else
    Except.error (PyError.keyError
      ("Device wth name '" ++ device ++ "' is unknown to the packager'."))

/-- Python `StringIO.readlines` on the stored text, second half: every chunk
but the last is closed by the newline that ended it; an empty final chunk is
the artifact of a trailing newline and yields no line. -/
def joinNl : List String → List String
  | [] => []
  | [last] => if last = "" then [] else [last]
  | l :: next :: rest => (l ++ "\n") :: joinNl (next :: rest)

/-- Python `StringIO.readlines` on the stored text (source lines 275, 306):
the text split after each newline, with the terminators kept. -/
def pyReadlines (s : String) : List String :=
  joinNl (s.splitOn "\n")

/-- Python `"".join(...)`: concatenation of a list of strings. -/
def concatAll (l : List String) : String :=
  l.foldr (fun a b => a ++ b) ""

/-- The `CSVpackager.data` property (source lines 279-307): the concatenation
of the lines that follow the header lines and the column-name line. -/
def CSVpackager.data (p : CSVpackager) : String :=
  concatAll ((pyReadlines p.fileText).drop (p.header_lines + 1))

/-- The `CSVpackager.delimiter` property (source lines 425-446),
parameterized by the external delimiter sniffer (clevercsv, an out-of-scope
collaborator): the sniffer is applied to the first two characters of the
data. -/
def CSVpackager.delimiter (sniff : String → String) (p : CSVpackager) : String :=
  sniff ((CSVpackager.data p).take 2)

/-- The data block as the spec describes it: the text after the header lines
and after the column-name line, that is the remaining lines joined by
newlines. -/
def specDataBlock (text : String) (headerLines : Nat) : String :=
  concatAll (List.intersperse "\n" ((text.splitOn "\n").drop (headerLines + 1)))

/-- What the external table loader produces: column labels and data rows. -/
abbrev PkgTable := List String × List (List String)

/-- A packager instance instrumented with the number of times the external
parser has been invoked on its behalf. -/
structure TracedPackager where
  pk : CSVpackager
  parseCalls : Nat
deriving DecidableEq, Repr

/-- One access of the `df` property (source lines 237-257): every access
invokes the external parser on a fresh stream of the stored text (source line
257); the class stores no parsed result, so each access adds one parser
invocation. -/
def df_access (loader : String → Nat → PkgTable) (t : TracedPackager) :
    PkgTable × TracedPackager :=
  (loader t.pk.fileText t.pk.header_lines, { t with parseCalls := t.parseCalls + 1 })

/-- The name carried by a synthesized field is the column it was made for. -/
theorem nameKey_create_field (c : String) : Field.nameKey (create_field c) = some c := rfl

/-- Removing an element that a predicate rejects leaves the filtered list
unchanged. -/
theorem removeFirst_filter (p : Field → Bool) (xs : List Field) (y : Field)
    (hy : p y = false) : (removeFirst xs y).filter p = xs.filter p := by
  induction xs with
  | nil => rfl
  | cons x rest ih =>
    by_cases hxy : x = y
    · subst hxy
      simp [removeFirst, List.filter_cons, hy]
    · simp [removeFirst, hxy, List.filter_cons, ih]

/-- The validation loop only deletes nameless fields, so it does not change
the sublist selected by any predicate that rejects nameless fields. -/
theorem validateLoop_filter (p : Field → Bool)
    (hp : ∀ f, Field.nameKey f = none → p f = false) :
    ∀ (fuel : Nat) (fields : List Field) (i : Nat),
      (validateLoop fuel fields i).filter p = fields.filter p := by
  intro fuel
  induction fuel with
  | zero => intro fields i; rfl
  | succ fuel ih =>
    intro fields i
    simp only [validateLoop]
    split
    · split
      · exact ih fields (i + 1)
      · rename_i h hname
        have hnone : Field.nameKey fields[i] = none := by
          cases hnk : Field.nameKey fields[i] with
          | none => rfl
          | some v => rw [hnk] at hname; simp at hname
        rw [ih]
        exact removeFirst_filter p fields fields[i] (hp _ hnone)
    · rfl

/-- A field whose name is a column name is untouched by the stale-removal
loop: it is carried through to the front of the result. -/
theorem staleLoop_cons_keep (cols : List String) (f : Field)
    (hf : keepName cols (Field.nameKey f) = true) :
    ∀ (ns : List (Option String)) (fields : List Field),
      staleLoop (f :: fields) ns cols =
        Except.map (fun l => f :: l) (staleLoop fields ns cols) := by
  intro ns
  induction ns with
  | nil => intro fields; rfl
  | cons n ns ih =>
    intro fields
    cases hn : keepName cols n
    · have hne : ¬(Field.nameKey f = n) := by
        intro e
        rw [e, hn] at hf
        exact Bool.false_ne_true hf
      simp only [staleLoop, hn, Bool.false_eq_true, if_false, removeField, if_neg hne]
      cases hrf : removeField fields n with
      | error e => simp [hrf, Except.map]
      | ok l => simp [hrf, ih, Except.map]
    · simp [staleLoop, hn, ih]

/-- The stale-removal loop, run on the snapshot of the fields' own names,
keeps exactly the fields whose name is a column name, in order, and never
fails. -/
theorem staleLoop_spec (cols : List String) :
    ∀ fields : List Field,
      staleLoop fields (fields.map Field.nameKey) cols =
        Except.ok (fields.filter (isKept cols)) := by
  intro fields
  induction fields with
  | nil => rfl
  | cons f rest ih =>
    cases hf : keepName cols (Field.nameKey f)
    · simp only [List.map_cons, staleLoop, hf, Bool.false_eq_true, if_false,
        removeField, if_pos rfl]
      simpa [List.filter_cons, isKept, hf] using ih
    · simp only [List.map_cons, staleLoop, hf, if_true]
      rw [staleLoop_cons_keep cols f hf, ih]
      simp [List.filter_cons, isKept, hf, Except.map]

/-- Every field the fill-in loop emits is either one of the fields it was
given or a synthesized field. -/
theorem fillLoop_mem (cols : List String) :
    ∀ (fields : List Field) (f : Field), f ∈ fillLoop fields cols →
      f ∈ fields ∨ ∃ c, f = create_field c := by
  induction cols with
  | nil => intro fields f hf; exact Or.inl hf
  | cons c rest ih =>
    intro fields f hf
    simp only [fillLoop] at hf
    split at hf
    · exact ih fields f hf
    · rcases ih _ f hf with h | h
      · rcases List.mem_append.mp h with h | h
        · exact Or.inl h
        · exact Or.inr ⟨c, by simpa using h⟩
      · exact Or.inr h

/-- On distinct column names, the fill-in loop appends one synthesized field
per column name not already named by the given fields, in column order, after
all given fields. -/
theorem fillLoop_spec :
    ∀ cols : List String, cols.Nodup → ∀ fields : List Field,
      fillLoop fields cols =
        fields ++ (cols.filter
          (fun c => !((fields.map Field.nameKey).contains (some c)))).map create_field := by
  intro cols
  induction cols with
  | nil => intro _ fields; simp [fillLoop]
  | cons c rest ih =>
    intro hnd fields
    obtain ⟨hc, hrest⟩ := List.nodup_cons.mp hnd
    cases hmem : (fields.map Field.nameKey).contains (some c)
    · simp only [fillLoop, hmem, Bool.false_eq_true, if_false]
      rw [ih hrest (fields ++ [create_field c])]
      have hcong : rest.filter
            (fun x => !(((fields ++ [create_field c]).map Field.nameKey).contains (some x)))
          = rest.filter (fun x => !((fields.map Field.nameKey).contains (some x))) := by
        apply List.filter_congr
        intro x hx
        have hxc : ¬(some x = some c) := by
          intro e
          exact hc ((Option.some.inj e) ▸ hx)
        simp [List.map_append, nameKey_create_field, hxc]
      rw [hcong, List.filter_cons]
      simp only [hmem, Bool.not_false, eq_self_iff_true, if_true, List.map_cons,
        List.append_assoc, List.singleton_append]
    · simp only [fillLoop, hmem, eq_self_iff_true, if_true]
      rw [ih hrest fields, List.filter_cons]
      simp only [hmem, Bool.not_true, Bool.false_eq_true, if_false]

/-- For a nonempty stored field list, the `fields` property is the fill-in
loop run on the stored entries whose name is a column name, kept in their
original order. -/
theorem fieldsOf_some_spec (fs : List Field) (cols : List String) (hfs : fs ≠ []) :
    fieldsOf (some fs) cols = Except.ok (fillLoop (fs.filter (isKept cols)) cols) := by
  have hne : fs.isEmpty = false := by
    cases fs with
    | nil => exact absurd rfl hfs
    | cons a l => rfl
  have hp : ∀ f, Field.nameKey f = none → isKept cols f = false := by
    intro f h
    simp [isKept, h, keepName]
  simp only [fieldsOf, hne, Bool.false_eq_true, if_false]
  rw [staleLoop_spec, validateLoop_filter (isKept cols) hp]

/-- Concatenating the newline-terminated lines that remain after dropping `k`
of them is the same as joining the remaining newline-free chunks with
newlines. -/
theorem concat_joinNl_drop :
    ∀ (parts : List String) (k : Nat),
      concatAll ((joinNl parts).drop k) =
        concatAll (List.intersperse "\n" (parts.drop k)) := by
  intro parts
  induction parts with
  | nil => intro k; simp [joinNl, List.drop_nil]
  | cons p rest ih =>
    intro k
    cases rest with
    | nil =>
      cases k with
      | zero =>
        by_cases hp : p = ""
        · subst hp; rfl
        · simp only [joinNl, if_neg hp]
          rfl
      | succ k =>
        by_cases hp : p = ""
        · subst hp
          simp [joinNl, List.drop_nil]
        · simp only [joinNl, if_neg hp, List.drop_succ_cons, List.drop_nil]
          rfl
    | cons q rest2 =>
      cases k with
      | zero =>
        have h0 := ih 0
        simp only [List.drop_zero] at h0
        show (p ++ "\n") ++ concatAll (joinNl (q :: rest2)) =
          p ++ ("\n" ++ concatAll (List.intersperse "\n" (q :: rest2)))
        rw [h0, String.append_assoc]
      | succ k =>
        show concatAll ((joinNl (q :: rest2)).drop k) =
          concatAll (List.intersperse "\n" ((q :: rest2).drop k))
        exact ih k

/-- C1: for every supplied field list and every parsed table (distinct column
names), the reconciled schema is exactly the supplied entries whose name
occurs among the column names, in their original relative order, followed by
one synthesized field for each column name not matched by a surviving entry,
appended after all survivors in column order. -/
theorem fields_reconcile_order (fs : List Field) (cols : List String)
    (hnd : cols.Nodup) :
    fieldsOf (some fs) cols = Except.ok
      ((fs.filter (isKept cols)) ++
        (cols.filter (fun c =>
          !(((fs.filter (isKept cols)).map Field.nameKey).contains (some c)))).map
          create_field) := by
  by_cases hfs : fs = []
  · subst hfs
    have h1 : fieldsOf (some []) cols = Except.ok (create_fields cols) := rfl
    rw [h1]
    simp [create_fields]
  · rw [fieldsOf_some_spec fs cols hfs, fillLoop_spec cols hnd]

/-- C1 witness: the worked scenario of the source doctest (lines 133-139),
with a stale entry `x` and a nameless entry. -/
theorem fields_reconcile_order_witness :
    fieldsOf
        (some [[("name", "E"), ("unit", "V"), ("reference", "RHE")],
               [("name", "j"), ("unit", "uA / cm2")],
               [("name", "x")],
               [("foo", "bar")]])
        ["t", "E", "j"] =
      Except.ok [[("name", "E"), ("unit", "V"), ("reference", "RHE")],
                 [("name", "j"), ("unit", "uA / cm2")],
                 [("name", "t"), ("comment", "Created by echemdb-converters.")]] := by
  rw [fields_reconcile_order _ _ (by decide)]
  decide

/-- C2: every entry lacking a `name` key is dropped during reconciliation:
no member of the resulting schema lacks a name, for every supplied field list
(consecutive nameless entries included) and every column-name list. -/
theorem fields_drop_nameless (fs : List Field) (cols : List String)
    (r : List Field) (f : Field)
    (hr : fieldsOf (some fs) cols = Except.ok r) (hf : f ∈ r) :
    (Field.nameKey f).isSome = true := by
  by_cases hfs : fs = []
  · subst hfs
    have h1 : fieldsOf (some []) cols = Except.ok (create_fields cols) := rfl
    rw [h1] at hr
    have hrc : r = create_fields cols := (Except.ok.inj hr).symm
    subst hrc
    rcases List.mem_map.mp hf with ⟨c, _, rfl⟩
    rw [nameKey_create_field]
    rfl
  · rw [fieldsOf_some_spec fs cols hfs] at hr
    have hrc : r = fillLoop (fs.filter (isKept cols)) cols := (Except.ok.inj hr).symm
    subst hrc
    rcases fillLoop_mem cols _ f hf with h | ⟨c, rfl⟩
    · have hkeep : isKept cols f = true := (List.mem_filter.mp h).2
      cases hnk : Field.nameKey f with
      | none =>
        rw [isKept, hnk] at hkeep
        exact absurd hkeep (by simp [keepName])
      | some v => rfl
    · rw [nameKey_create_field]
      rfl

/-- C2 witness: two consecutive nameless entries; both are absent from the
result, whose single member carries a name. -/
theorem fields_drop_nameless_witness :
    (Field.nameKey [("name", "t")]).isSome = true :=
  fields_drop_nameless [[("foo", "bar")], [("baz", "qux")], [("name", "t")]]
    ["t"] [[("name", "t")]] [("name", "t")] (by decide) (by decide)

/-- C3: with no field list supplied, the schema is exactly one field per
column name, in column order, each being the mapping of the name and the
generated-marker comment and nothing else. -/
theorem fields_default_schema (cols : List String) :
    fieldsOf none cols =
      Except.ok (cols.map (fun c =>
        [("name", c), ("comment", "Created by echemdb-converters.")])) := rfl

/-- C4: reconciliation never fails: for every supplied field list and every
column-name list the `fields` operation returns a schema normally. -/
theorem fields_total (storedFields : Option (List Field)) (cols : List String) :
    ∃ r, fieldsOf storedFields cols = Except.ok r := by
  cases storedFields with
  | none => exact ⟨_, rfl⟩
  | some fs =>
    by_cases hfs : fs = []
    · subst hfs
      exact ⟨_, rfl⟩
    · exact ⟨_, fieldsOf_some_spec fs cols hfs⟩

/-- C5: requesting the schema twice in succession yields identical output,
and the stored field list is unchanged by a request, for every instance and
every table loader. -/
theorem fields_request_stable (loader : String → Nat → List String)
    (p : CSVpackager) :
    (fieldsRequest loader ((fieldsRequest loader p).2)).1 =
        (fieldsRequest loader p).1 ∧
      ((fieldsRequest loader p).2).storedFields = p.storedFields :=
  ⟨rfl, rfl⟩

/-- C6: the generic packager's decimal probe fails with the not-implemented
condition on every instance; a device variant declaring a literal separator
returns that literal for every file content. -/
theorem decimal_base_and_device :
    (∀ p : CSVpackager,
        CSVpackager.decimal p = Except.error PyError.notImplementedError) ∧
      (∀ (cfg : DeviceConfig) (text : String),
        DeviceConfig.decimalOf cfg text = Except.ok cfg.decimal) :=
  ⟨fun _ => rfl, fun _ _ => rfl⟩

/-- C7: every unregistered device identifier fails with a key-not-found error
whose message embeds the identifier, and the registered identifier "eclab"
yields the EC-Lab variant. -/
theorem get_packager_lookup (device : String) (hd : device ≠ "eclab") :
    (∃ pre post, get_packager device =
        Except.error (PyError.keyError (pre ++ device ++ post))) ∧
      get_packager "eclab" = Except.ok eclabConfig := by
  refine ⟨⟨"Device wth name '", "' is unknown to the packager'.", ?_⟩, rfl⟩
  rw [get_packager, if_neg hd]

/-- C7 witness: the unregistered identifier "foo". -/
theorem get_packager_lookup_witness :
    (∃ pre post, get_packager "foo" =
        Except.error (PyError.keyError (pre ++ "foo" ++ post))) ∧
      get_packager "eclab" = Except.ok eclabConfig :=
  get_packager_lookup "foo" (by decide)

/-- C8: for every input text the delimiter operation is exactly the external
sniffer applied to the first two characters of the data block, the text after
the header lines and after the column-name line. -/
theorem delimiter_sniffs_data_head (sniff : String → String) (p : CSVpackager) :
    CSVpackager.delimiter sniff p =
      sniff ((specDataBlock p.fileText p.header_lines).take 2) := by
  unfold CSVpackager.delimiter CSVpackager.data specDataBlock pyReadlines
  rw [concat_joinNl_drop]

/-- C9 counterexample: on a concrete instance, two accesses of the parsed
table invoke the external parser twice, refuting "computed at most once and
cached". -/
theorem df_not_cached :
    ¬((df_access (fun _ _ => (["a", "b"], [["0", "0"], ["1", "1"]]))
        ((df_access (fun _ _ => (["a", "b"], [["0", "0"], ["1", "1"]]))
          { pk := initPackager "a,b\n0,0\n1,1" none none,
            parseCalls := 0 }).2)).2.parseCalls ≤ 1) := by
  decide

/-- C9 amended: the parsed table is recomputed by a fresh parser invocation
on every access, but as the stored text is fixed at construction, every
access returns the same value and leaves the instance's state unchanged. -/
theorem df_recomputed_stable (loader : String → Nat → PkgTable)
    (t : TracedPackager) :
    (df_access loader t).1 = (df_access loader ((df_access loader t).2)).1 ∧
      ((df_access loader t).2).pk = t.pk :=
  ⟨rfl, rfl⟩

/-- C10: a packager constructed with the empty field list behaves exactly
like one constructed with no field list: both return the fully synthesized
one-field-per-column schema. -/
theorem empty_fields_like_none (loader : String → Nat → List String)
    (text : String) (md : Option PkgMetadata) :
    (fieldsRequest loader (initPackager text md (some []))).1 =
        (fieldsRequest loader (initPackager text md none)).1 ∧
      (fieldsRequest loader (initPackager text md (some []))).1 =
        Except.ok (create_fields
          (CSVpackager.column_names loader (initPackager text md (some [])))) :=
  ⟨rfl, rfl⟩

end Echem
